import Mathlib

/-!
Verification of the fragment-compilation pipeline of the `reportcompiler`
repository (hpv-information-centre/reportcompiler).

The Python sources are shallowly embedded: Python strings are modelled as
`List Char`, dictionaries as association lists, file contents as optional
values, exceptions as `Except`, and the mutable-state functions as pure
state-passing functions.  Each definition names the source function it
embeds (module, function, line numbers refer to the repository sources).
-/

set_option autoImplicit false

/-- Python strings are modelled as lists of characters. -/
abbrev Str := List Char

/-- Converts a Lean string literal to the `Str` model. -/
def toStr (s : String) : Str := s.data

/-- Models Python `str.split(sep)` for a one-character separator `sep`:
splits into the (always nonempty) list of chunks between occurrences of
`sep`. -/
def splitSep (sep : Char) : Str → List Str
  | [] => [[]]
  | c :: rest =>
    match splitSep sep rest with
    | [] => [[]]
    | s :: ss => if c = sep then [] :: s :: ss else (c :: s) :: ss

/-- Models Python `sep.join(chunks)` for a one-character separator. -/
def joinSep (sep : Char) : List Str → Str
  | [] => []
  | [s] => s
  | s :: t :: ss => s ++ sep :: joinSep sep (t :: ss)

theorem splitSep_ne_nil (sep : Char) (s : Str) : splitSep sep s ≠ [] := by
  induction s with
  | nil => simp [splitSep]
  | cons c rest ih =>
    simp only [splitSep]
    rcases h : splitSep sep rest with _ | ⟨t, ts⟩
    · simp
    · by_cases hc : c = sep <;> simp [hc]

theorem splitSep_no_sep (sep : Char) (s : Str) (h : sep ∉ s) :
    splitSep sep s = [s] := by
  induction s with
  | nil => rfl
  | cons c rest ih =>
    simp only [List.mem_cons, not_or] at h
    simp only [splitSep, ih h.2]
    have hc : ¬ c = sep := fun hcc => h.1 (by simp [hcc])
    simp [hc]

theorem splitSep_append_sep (sep : Char) (s t : Str) (h : sep ∉ s) :
    splitSep sep (s ++ sep :: t) = s :: splitSep sep t := by
  induction s with
  | nil =>
    simp only [List.nil_append, splitSep]
    rcases ht : splitSep sep t with _ | ⟨u, us⟩
    · exact absurd ht (splitSep_ne_nil sep t)
    · simp
  | cons c rest ih =>
    simp only [List.mem_cons, not_or] at h
    simp only [List.cons_append, splitSep, List.append_eq]
    rw [ih h.2]
    have hc : ¬ c = sep := fun hcc => h.1 (by simp [hcc])
    simp [hc]

/-- Splitting after joining recovers the chunks, provided no chunk contains
the separator. -/
theorem splitSep_joinSep (sep : Char) (l : List Str) (hne : l ≠ [])
    (h : ∀ s ∈ l, sep ∉ s) : splitSep sep (joinSep sep l) = l := by
  induction l with
  | nil => exact absurd rfl hne
  | cons s rest ih =>
    rcases rest with _ | ⟨t, ts⟩
    · exact splitSep_no_sep sep s (h s (by simp))
    · have hs : sep ∉ s := h s (by simp)
      have hrest : ∀ u ∈ t :: ts, sep ∉ u := fun u hu => h u (by simp [hu])
      simp only [joinSep, splitSep_append_sep sep s _ hs]
      rw [ih (by simp) hrest]

/-! ### Association-list model of Python dictionaries -/

section Dicts

variable {κ : Type} [DecidableEq κ] {α : Type}

/-- Models Python `d.get(key)`: the value stored under `key`, if any. -/
def getk : List (κ × α) → κ → Option α
  | [], _ => none
  | (k, v) :: rest, key => if k = key then some v else getk rest key

/-- Models Python `d[key] = v` on a (ordered) dict: replaces the value in
place if the key is present, otherwise appends the new pair at the end. -/
def setk : List (κ × α) → κ → α → List (κ × α)
  | [], key, v => [(key, v)]
  | (k, w) :: rest, key, v =>
    if k = key then (key, v) :: rest else (k, w) :: setk rest key v

/-- Models Python `d.update(other)`: sets every pair of `other` in `d`,
in order. -/
def dictUpdate (d other : List (κ × α)) : List (κ × α) :=
  other.foldl (fun acc kv => setk acc kv.1 kv.2) d

end Dicts

/-! ### The content cache of `SourceParser.setup_and_generate_context`
(`reportcompiler/plugins/source_parsers/base.py`, lines 30-150).

The four fingerprint hashes are sha256 hex digests in the source; here the
digest function is an explicit parameter `h : Str → Str`.  The canonical
serializations produced by `json.dumps(..., sort_keys=True)` /
`convert_to_json` are taken as the function's string inputs. -/

/-- Names of the four fingerprint components (base.py lines 77-78). -/
def hash_component_names : List String :=
  ["code_hash", "docparam_hash", "data_hash", "metadata_hash"]

/-- The current fingerprint string: the four component hashes joined by
a newline (base.py lines 75-79). -/
def current_hash (h : Str → Str) (source docParamSer dataSer metaSer : Str) : Str :=
  joinSep '\n' [h source, h docParamSer, h dataSer, h metaSer]

/-- The changed fingerprint components, as reported in the cache-miss
warning (base.py lines 94-104): both hash strings are split on newlines,
compared index by index over the length of the current list, zipped with
the component names and filtered to the differing ones. -/
def hash_differences (cur prev : Str) : List String :=
  ((hash_component_names.zip
      ((List.range (splitSep '\n' cur).length).map
        (fun i =>
          decide ((splitSep '\n' cur).getD i [] ≠ (splitSep '\n' prev).getD i [])))).filter
    (fun p => p.2)).map (fun p => p.1)

/-- On-disk cache state for one `(doc_suffix, fragment_name)` key:
the `.hash` fingerprint record and the `.ctx` context artifact.
`ctxFile = none` models an absent artifact file, `some none` an existing
file whose contents `json.load` cannot parse, `some (some c)` an existing
artifact parsing to context `c`. -/
structure CacheState (Ctx : Type) where
  hashFile : Option Str
  ctxFile : Option (Option Ctx)
deriving DecidableEq

/-- Exceptions that `setup_and_generate_context` can raise. -/
inductive RunError where
  /-- `json.JSONDecodeError` escaping the `json.load` of the `.ctx`
  artifact (base.py line 84; only `FileNotFoundError` is caught). -/
  | ctxParseError
  /-- `IndexError` escaping the list comprehension at base.py line 96 when
  the stored record has fewer newline-separated lines than the current
  fingerprint. -/
  | indexError
  /-- The `raise_generator_exception` call at base.py line 118 (hash
  strings differ but no component differs and the artifact exists). -/
  | unexpectedError
  /-- An exception raised by `generate_context` (base.py line 133). -/
  | generationError
deriving DecidableEq

/-- Everything observable about one `setup_and_generate_context` call:
the returned context or raised error, whether the context-generation
strategy ran, the component list logged by the cache-miss warning at
base.py line 106 (if that warning fired), whether the temporary snapshot
at base.py line 126 was written, and the final cache state. -/
structure RunOutcome (Ctx : Type) where
  result : Except RunError Ctx
  generatorInvoked : Bool
  missReport : Option (List String)
  tmpWritten : Bool
  finalState : CacheState Ctx

/-- The cache-lookup phase of `setup_and_generate_context` (base.py lines
55-124): either an error, or an optional reused context together with the
optional miss-warning component list. -/
def cache_check {Ctx : Type} (h : Str → Str) (skipUnchanged : Bool)
    (source docParamSer dataSer metaSer : Str) (st : CacheState Ctx) :
    Except RunError (Option Ctx × Option (List String)) :=
  if skipUnchanged then
    let cur := current_hash h source docParamSer dataSer metaSer
    -- base.py lines 68-73: a missing `.hash` file reads as the empty string
    let prev := st.hashFile.getD []
    if cur = prev ∧ st.ctxFile.isSome then
      match st.ctxFile with
      | some (some c) => .ok (some c, none)
      | some none => .error .ctxParseError
      | none => .ok (none, none)
    else
      if prev = [] then
        -- "No previous context found" warning (lines 88-92)
        .ok (none, none)
      else
        let hashList := splitSep '\n' cur
        let prevList := splitSep '\n' prev
        if prevList.length < hashList.length then .error .indexError
        else
          let diffs := hash_differences cur prev
          if diffs.length > 0 then .ok (none, some diffs)
          else if st.ctxFile.isNone then
            -- "Output data not available" (lines 111-116)
            .ok (none, none)
          else .error .unexpectedError
  else .ok (none, none)

/-- Models `SourceParser.setup_and_generate_context` (base.py lines
30-150).  `genResult` stands for the outcome of the
`self.generate_context` call; the temporary parameter/data/metadata
snapshot written at line 126 is reported through `tmpWritten`. -/
def setup_and_generate_context {Ctx : Type} (h : Str → Str)
    (skipUnchanged : Bool) (source docParamSer dataSer metaSer : Str)
    (genResult : Except Unit Ctx) (st : CacheState Ctx) : RunOutcome Ctx :=
  let cur := current_hash h source docParamSer dataSer metaSer
  match cache_check h skipUnchanged source docParamSer dataSer metaSer st with
  | .error e =>
    { result := .error e, generatorInvoked := false, missReport := none,
      tmpWritten := false, finalState := st }
  | .ok (some c, report) =>
    -- cache hit: generation skipped, the `.ctx` artifact rewritten with
    -- the re-serialized context (lines 138-147)
    { result := .ok c, generatorInvoked := false, missReport := report,
      tmpWritten := true,
      finalState := { hashFile := st.hashFile, ctxFile := some (some c) } }
  | .ok (none, report) =>
    match genResult with
    | .error _ =>
      -- generate_context raised: nothing below line 133 runs
      { result := .error .generationError, generatorInvoked := true,
        missReport := report, tmpWritten := true, finalState := st }
    | .ok c =>
      -- lines 135-137 write the `.hash` record only when caching is
      -- enabled; line 146 always rewrites the `.ctx` artifact
      { result := .ok c, generatorInvoked := true, missReport := report,
        tmpWritten := true,
        finalState := { hashFile := if skipUnchanged then some cur else st.hashFile,
                        ctxFile := some (some c) } }

/-! ### Fingerprint lemmas -/

theorem joinSep4_ne_nil (a b c d : Str) : joinSep '\n' [a, b, c, d] ≠ [] := by
  cases a <;> simp [joinSep]

theorem splitSep_join4 (a b c d : Str) (ha : '\n' ∉ a) (hb : '\n' ∉ b)
    (hc : '\n' ∉ c) (hd : '\n' ∉ d) :
    splitSep '\n' (joinSep '\n' [a, b, c, d]) = [a, b, c, d] := by
  refine splitSep_joinSep _ _ (by simp) ?_
  intro s hs
  simp only [List.mem_cons, List.not_mem_nil, or_false] at hs
  rcases hs with rfl | rfl | rfl | rfl <;> assumption

theorem join4_inj (a b c d w x y z : Str) (ha : '\n' ∉ a) (hb : '\n' ∉ b)
    (hc : '\n' ∉ c) (hd : '\n' ∉ d) (hw : '\n' ∉ w) (hx : '\n' ∉ x)
    (hy : '\n' ∉ y) (hz : '\n' ∉ z)
    (h : joinSep '\n' [a, b, c, d] = joinSep '\n' [w, x, y, z]) :
    a = w ∧ b = x ∧ c = y ∧ d = z := by
  have := congrArg (splitSep '\n') h
  rw [splitSep_join4 a b c d ha hb hc hd, splitSep_join4 w x y z hw hx hy hz] at this
  simp only [List.cons.injEq, and_true] at this
  exact ⟨this.1, this.2.1, this.2.2.1, this.2.2.2⟩

/-- On well-formed fingerprints, `hash_differences` reports exactly the
components whose hashes differ, in the fixed component order. -/
theorem hash_differences_explicit (a₁ b₁ c₁ d₁ a₀ b₀ c₀ d₀ : Str)
    (ha₁ : '\n' ∉ a₁) (hb₁ : '\n' ∉ b₁) (hc₁ : '\n' ∉ c₁) (hd₁ : '\n' ∉ d₁)
    (ha₀ : '\n' ∉ a₀) (hb₀ : '\n' ∉ b₀) (hc₀ : '\n' ∉ c₀) (hd₀ : '\n' ∉ d₀) :
    hash_differences (joinSep '\n' [a₁, b₁, c₁, d₁]) (joinSep '\n' [a₀, b₀, c₀, d₀]) =
      (if a₁ = a₀ then [] else ["code_hash"]) ++
      (if b₁ = b₀ then [] else ["docparam_hash"]) ++
      (if c₁ = c₀ then [] else ["data_hash"]) ++
      (if d₁ = d₀ then [] else ["metadata_hash"]) := by
  unfold hash_differences
  rw [splitSep_join4 a₁ b₁ c₁ d₁ ha₁ hb₁ hc₁ hd₁,
    splitSep_join4 a₀ b₀ c₀ d₀ ha₀ hb₀ hc₀ hd₀]
  by_cases h1 : a₁ = a₀ <;> by_cases h2 : b₁ = b₀ <;>
    by_cases h3 : c₁ = c₀ <;> by_cases h4 : d₁ = d₀ <;>
    simp [hash_component_names, List.range_succ, h1, h2, h3, h4]

theorem hash_differences_self (x : Str) : hash_differences x x = [] := by
  simp only [hash_differences, ne_eq]
  simp
  intro a ha
  exact absurd (List.eq_of_mem_replicate (List.of_mem_zip ha).2) (by simp)

/-- A well-formed `.hash` record: absent, or exactly the four
newline-free component hashes joined by newlines, as written by a
previous successful run (base.py lines 136-137). -/
def wellFormedHashFile {Ctx : Type} (st : CacheState Ctx) : Prop :=
  st.hashFile = none ∨
    ∃ a b c d : Str, '\n' ∉ a ∧ '\n' ∉ b ∧ '\n' ∉ c ∧ '\n' ∉ d ∧
      st.hashFile = some (joinSep '\n' [a, b, c, d])

theorem cache_check_hit {Ctx : Type} (h : Str → Str) (src par dat met : Str)
    (st : CacheState Ctx) (pc : Ctx)
    (hhash : st.hashFile = some (current_hash h src par dat met))
    (hctx : st.ctxFile = some (some pc)) :
    cache_check h true src par dat met st = .ok (some pc, none) := by
  simp [cache_check, hhash, hctx]

theorem cache_check_parse_error {Ctx : Type} (h : Str → Str) (src par dat met : Str)
    (st : CacheState Ctx)
    (hhash : st.hashFile = some (current_hash h src par dat met))
    (hctx : st.ctxFile = some none) :
    cache_check h true src par dat met st = .error .ctxParseError := by
  simp [cache_check, hhash, hctx]

theorem cache_check_no_prev {Ctx : Type} (h : Str → Str) (src par dat met : Str)
    (st : CacheState Ctx) (hhash : st.hashFile = none) :
    cache_check h true src par dat met st = .ok (none, none) := by
  simp [cache_check, hhash, current_hash, joinSep4_ne_nil]

theorem cache_check_missing_ctx {Ctx : Type} (h : Str → Str) (src par dat met : Str)
    (st : CacheState Ctx)
    (hhash : st.hashFile = some (current_hash h src par dat met))
    (hctx : st.ctxFile = none) :
    cache_check h true src par dat met st = .ok (none, none) := by
  simp [cache_check, hhash, hctx, current_hash, joinSep4_ne_nil,
    hash_differences_self]

theorem cache_check_changed {Ctx : Type} (h : Str → Str) (src par dat met : Str)
    (st : CacheState Ctx) (a b c d : Str)
    (hna : '\n' ∉ a) (hnb : '\n' ∉ b) (hnc : '\n' ∉ c) (hnd : '\n' ∉ d)
    (hs : '\n' ∉ h src) (hp : '\n' ∉ h par) (hd : '\n' ∉ h dat) (hm : '\n' ∉ h met)
    (hhash : st.hashFile = some (joinSep '\n' [a, b, c, d]))
    (hne : joinSep '\n' [a, b, c, d] ≠ current_hash h src par dat met) :
    cache_check h true src par dat met st =
      .ok (none, some ((if h src = a then [] else ["code_hash"]) ++
        (if h par = b then [] else ["docparam_hash"]) ++
        (if h dat = c then [] else ["data_hash"]) ++
        (if h met = d then [] else ["metadata_hash"]))) := by
  have hcur_ne : ¬ (current_hash h src par dat met = joinSep '\n' [a, b, c, d]) :=
    fun e => hne e.symm
  have hprev_ne : ¬ (joinSep '\n' [a, b, c, d] = []) := joinSep4_ne_nil a b c d
  have hlen : (splitSep '\n' (joinSep '\n' [a, b, c, d])).length =
      (splitSep '\n' (current_hash h src par dat met)).length := by
    rw [splitSep_join4 a b c d hna hnb hnc hnd]
    rw [current_hash, splitSep_join4 _ _ _ _ hs hp hd hm]
    rfl
  have hdiff : hash_differences (current_hash h src par dat met)
      (joinSep '\n' [a, b, c, d]) =
      (if h src = a then [] else ["code_hash"]) ++
      (if h par = b then [] else ["docparam_hash"]) ++
      (if h dat = c then [] else ["data_hash"]) ++
      (if h met = d then [] else ["metadata_hash"]) := by
    rw [current_hash]
    exact hash_differences_explicit _ _ _ _ _ _ _ _ hs hp hd hm hna hnb hnc hnd
  have hnotall : ¬ (h src = a ∧ h par = b ∧ h dat = c ∧ h met = d) := by
    rintro ⟨e1, e2, e3, e4⟩
    exact hne (by rw [current_hash, e1, e2, e3, e4])
  simp [cache_check, hhash, hcur_ne, hprev_ne, hlen, hdiff, Nat.not_lt.mpr hlen.ge]
  intro e1 e2 e3 e4
  exact absurd ⟨e1, e2, e3, e4⟩ hnotall

/-- C1 counterexample: with caching enabled, a stored fingerprint equal to
the current one and an existing but unparseable `.ctx` artifact,
`setup_and_generate_context` raises (the `json.load` error propagates) and
the fragment is not recomputed — contradicting the claim that an artifact
parse failure is treated as a miss with no error raised. -/
theorem c1_parse_failure_raises :
    ((setup_and_generate_context id true (toStr "src") (toStr "par")
        (toStr "dat") (toStr "met") (Except.ok 7)
        { hashFile := some (current_hash id (toStr "src") (toStr "par")
            (toStr "dat") (toStr "met")),
          ctxFile := (some none : Option (Option Nat)) }).result =
      .error .ctxParseError) ∧
    (setup_and_generate_context id true (toStr "src") (toStr "par")
        (toStr "dat") (toStr "met") (Except.ok 7)
        { hashFile := some (current_hash id (toStr "src") (toStr "par")
            (toStr "dat") (toStr "met")),
          ctxFile := (some none : Option (Option Nat)) }).generatorInvoked = false := by
  constructor <;> rfl

/-- C1 (amended): with caching enabled and a well-formed stored record,
the stored context is reused (skipping `generate_context`) if and only if
the stored fingerprint string equals the current four-component
fingerprint and the stored artifact exists and parses.  A fingerprint
mismatch or a missing artifact is a miss: the fragment is recomputed and
no error is raised.  However, when the fingerprint matches and the
artifact exists but fails to parse, the parse error propagates and the
fragment is not recomputed (amending the original claim, which said this
case too was a silent miss). -/
theorem c1_cache_reuse_characterization {Ctx : Type} (h : Str → Str)
    (src par dat met : Str) (gen : Except Unit Ctx) (st : CacheState Ctx)
    (hwf : wellFormedHashFile st)
    (hs : '\n' ∉ h src) (hp : '\n' ∉ h par) (hd : '\n' ∉ h dat)
    (hm : '\n' ∉ h met) :
    (((setup_and_generate_context h true src par dat met gen st).generatorInvoked = false ∧
        ∃ c, (setup_and_generate_context h true src par dat met gen st).result = .ok c) ↔
      (st.hashFile = some (current_hash h src par dat met) ∧
        ∃ c, st.ctxFile = some (some c))) ∧
    (st.hashFile = some (current_hash h src par dat met) → st.ctxFile = some none →
      (setup_and_generate_context h true src par dat met gen st).result =
          .error .ctxParseError ∧
        (setup_and_generate_context h true src par dat met gen st).generatorInvoked = false) ∧
    (¬ (st.hashFile = some (current_hash h src par dat met) ∧ st.ctxFile.isSome = true) →
      (setup_and_generate_context h true src par dat met gen st).generatorInvoked = true ∧
        (setup_and_generate_context h true src par dat met gen st).result =
          (match gen with
            | .ok c => Except.ok c
            | .error _ => Except.error RunError.generationError)) := by
  rcases hwf with hnone | ⟨a, b, c, d, hna, hnb, hnc, hnd, hsome⟩
  · have hcc := cache_check_no_prev h src par dat met st hnone
    refine ⟨?_, ?_, ?_⟩
    · cases gen <;> simp [setup_and_generate_context, hcc, hnone]
    · intro hh
      rw [hnone] at hh
      exact absurd hh (by simp)
    · intro _
      cases gen <;> simp [setup_and_generate_context, hcc]
  · by_cases heq : joinSep '\n' [a, b, c, d] = current_hash h src par dat met
    · rw [heq] at hsome
      rcases hctx : st.ctxFile with _ | pco
      · have hcc := cache_check_missing_ctx h src par dat met st hsome hctx
        refine ⟨?_, ?_, ?_⟩
        · cases gen <;> simp [setup_and_generate_context, hcc, hctx]
        · intro _ hc
          exact absurd hc (by simp)
        · intro _
          cases gen <;> simp [setup_and_generate_context, hcc]
      · rcases pco with _ | pc
        · have hcc := cache_check_parse_error h src par dat met st hsome hctx
          refine ⟨?_, ?_, ?_⟩
          · simp [setup_and_generate_context, hcc, hctx]
          · intro _ _
            simp [setup_and_generate_context, hcc]
          · intro hmiss
            exact absurd ⟨hsome, by simp [hctx]⟩ hmiss
        · have hcc := cache_check_hit h src par dat met st pc hsome hctx
          refine ⟨?_, ?_, ?_⟩
          · simp [setup_and_generate_context, hcc, hsome, hctx]
          · intro _ hc
            exact absurd hc (by simp)
          · intro hmiss
            exact absurd ⟨hsome, by simp [hctx]⟩ hmiss
    · have hcc := cache_check_changed h src par dat met st a b c d
        hna hnb hnc hnd hs hp hd hm hsome heq
      have hne2 : st.hashFile ≠ some (current_hash h src par dat met) := by
        rw [hsome]
        intro hx
        exact heq (by injection hx)
      refine ⟨?_, ?_, ?_⟩
      · cases gen <;> simp [setup_and_generate_context, hcc, hne2]
      · intro hh
        exact absurd hh hne2
      · intro _
        cases gen <;> simp [setup_and_generate_context, hcc]

/-- C1 witness: the reuse characterization instantiated at a concrete
empty cache state. -/
theorem c1_cache_reuse_witness :
    ((setup_and_generate_context id true (toStr "s") (toStr "p") (toStr "q")
        (toStr "r") (Except.ok 5)
        ({ hashFile := none, ctxFile := none } : CacheState Nat)).generatorInvoked = false ∧
      ∃ c, (setup_and_generate_context id true (toStr "s") (toStr "p") (toStr "q")
        (toStr "r") (Except.ok 5)
        ({ hashFile := none, ctxFile := none } : CacheState Nat)).result = .ok c) ↔
    (({ hashFile := none, ctxFile := none } : CacheState Nat).hashFile =
        some (current_hash id (toStr "s") (toStr "p") (toStr "q") (toStr "r")) ∧
      ∃ c, ({ hashFile := none, ctxFile := none } : CacheState Nat).ctxFile =
        some (some c)) :=
  (c1_cache_reuse_characterization id (toStr "s") (toStr "p") (toStr "q")
    (toStr "r") (Except.ok 5) { hashFile := none, ctxFile := none }
    (Or.inl rfl) (by decide) (by decide) (by decide) (by decide)).1

/-- C2: when a previous well-formed fingerprint exists and at least one of
the four inputs changed, the cache-miss warning of
`setup_and_generate_context` reports exactly the components whose input
changed (no false positives or negatives), assuming the per-component
hashes are collision-free on the inputs involved and newline-free (as
sha256 hex digests are). -/
theorem c2_miss_explanation_exact {Ctx : Type} (h : Str → Str)
    (src0 par0 dat0 met0 src1 par1 dat1 met1 : Str) (gen : Except Unit Ctx)
    (ctxf : Option (Option Ctx))
    (n0s : '\n' ∉ h src0) (n0p : '\n' ∉ h par0) (n0d : '\n' ∉ h dat0)
    (n0m : '\n' ∉ h met0)
    (n1s : '\n' ∉ h src1) (n1p : '\n' ∉ h par1) (n1d : '\n' ∉ h dat1)
    (n1m : '\n' ∉ h met1)
    (injS : h src1 = h src0 ↔ src1 = src0)
    (injP : h par1 = h par0 ↔ par1 = par0)
    (injD : h dat1 = h dat0 ↔ dat1 = dat0)
    (injM : h met1 = h met0 ↔ met1 = met0)
    (hchange : ¬ (src1 = src0 ∧ par1 = par0 ∧ dat1 = dat0 ∧ met1 = met0)) :
    (setup_and_generate_context h true src1 par1 dat1 met1 gen
        { hashFile := some (current_hash h src0 par0 dat0 met0),
          ctxFile := ctxf }).missReport =
      some ((if src1 = src0 then [] else ["code_hash"]) ++
        (if par1 = par0 then [] else ["docparam_hash"]) ++
        (if dat1 = dat0 then [] else ["data_hash"]) ++
        (if met1 = met0 then [] else ["metadata_hash"])) := by
  have hne : joinSep '\n' [h src0, h par0, h dat0, h met0] ≠
      current_hash h src1 par1 dat1 met1 := by
    intro e
    have := join4_inj _ _ _ _ _ _ _ _ n0s n0p n0d n0m n1s n1p n1d n1m e
    exact hchange ⟨injS.mp this.1.symm, injP.mp this.2.1.symm,
      injD.mp this.2.2.1.symm, injM.mp this.2.2.2.symm⟩
  have hcc := cache_check_changed h src1 par1 dat1 met1
    { hashFile := some (current_hash h src0 par0 dat0 met0), ctxFile := ctxf }
    (h src0) (h par0) (h dat0) (h met0) n0s n0p n0d n0m n1s n1p n1d n1m
    rfl hne
  cases gen <;>
    simp [setup_and_generate_context, hcc, injS, injP, injD, injM]

/-- C2 witness: changing only the fragment source (with the identity as
hash) reports exactly the code component. -/
theorem c2_miss_explanation_witness :
    (setup_and_generate_context id true (toStr "s1") (toStr "p") (toStr "q")
        (toStr "r") (Except.ok 0)
        ({ hashFile := some (current_hash id (toStr "s0") (toStr "p")
            (toStr "q") (toStr "r")),
           ctxFile := none } : CacheState Nat)).missReport =
      some ["code_hash"] :=
  (c2_miss_explanation_exact id (toStr "s0") (toStr "p") (toStr "q")
      (toStr "r") (toStr "s1") (toStr "p") (toStr "q") (toStr "r")
      (Except.ok 0) none
      (by decide) (by decide) (by decide) (by decide)
      (by decide) (by decide) (by decide) (by decide)
      Iff.rfl Iff.rfl Iff.rfl Iff.rfl (by decide)).trans (by decide)

/-- C6: if `generate_context` raises (and it was actually invoked, i.e.
this was not a cache hit), the cache state for the fragment's key is left
unchanged: neither the `.hash` fingerprint record nor the `.ctx` context
artifact is written, and the error propagates. -/
theorem c6_failed_generation_leaves_cache {Ctx : Type} (h : Str → Str)
    (skipUnchanged : Bool) (src par dat met : Str) (st : CacheState Ctx)
    (hinv : (setup_and_generate_context h skipUnchanged src par dat met
        (Except.error ()) st).generatorInvoked = true) :
    (setup_and_generate_context h skipUnchanged src par dat met
        (Except.error ()) st).finalState = st ∧
      (setup_and_generate_context h skipUnchanged src par dat met
        (Except.error ()) st).result = .error .generationError := by
  rcases hcc : cache_check h skipUnchanged src par dat met st with e | ⟨co, rep⟩
  · simp [setup_and_generate_context, hcc] at hinv
  · rcases co with _ | c
    · simp [setup_and_generate_context, hcc]
    · simp [setup_and_generate_context, hcc] at hinv

/-- C6 witness: a failing generation on an empty cache leaves the cache
empty. -/
theorem c6_failed_generation_witness :
    (setup_and_generate_context id true (toStr "a") (toStr "b") (toStr "c")
        (toStr "d") (Except.error ())
        ({ hashFile := none, ctxFile := none } : CacheState Nat)).finalState =
      { hashFile := none, ctxFile := none } ∧
    (setup_and_generate_context id true (toStr "a") (toStr "b") (toStr "c")
        (toStr "d") (Except.error ())
        ({ hashFile := none, ctxFile := none } : CacheState Nat)).result =
      .error .generationError :=
  c6_failed_generation_leaves_cache id true (toStr "a") (toStr "b")
    (toStr "c") (toStr "d") { hashFile := none, ctxFile := none } (by decide)

/-- C7: with `skip_unchanged_fragments` disabled, no cache lookup happens
(the outcome does not depend on the stored records), the
context-generation strategy always runs, no fingerprint record is written
(the `.hash` file is untouched), and on success the context artifact is
still persisted to the `.ctx` cache location. -/
theorem c7_skip_disabled_always_recomputes {Ctx : Type} (h : Str → Str)
    (src par dat met : Str) (gen : Except Unit Ctx) (st : CacheState Ctx) :
    (setup_and_generate_context h false src par dat met gen st).generatorInvoked = true ∧
    (setup_and_generate_context h false src par dat met gen st).missReport = none ∧
    (setup_and_generate_context h false src par dat met gen st).finalState.hashFile =
      st.hashFile ∧
    (setup_and_generate_context h false src par dat met gen st).result =
      (match gen with
        | .ok c => Except.ok c
        | .error _ => Except.error RunError.generationError) ∧
    (setup_and_generate_context h false src par dat met gen st).finalState.ctxFile =
      (match gen with
        | .ok c => some (some c)
        | .error _ => st.ctxFile) := by
  have hcc : cache_check h false src par dat met st = .ok (none, none) := rfl
  cases gen <;> simp [setup_and_generate_context, hcc]

/-! ### `FragmentCompiler.fetch_info`
(`reportcompiler/documentcompilers.py`, lines 868-943). -/

/-- One entry of the fetcher list declared in the fragment metadata; only
the optional explicit `name` key matters for fetcher identity. -/
structure FetcherInfo where
  name : Option String
deriving DecidableEq

/-- The fetcher id (documentcompilers.py lines 929-933): the explicit
name when given, otherwise the positional index as a string. -/
def fetcher_id_of (i : Nat) (fi : FetcherInfo) : String :=
  match fi.name with
  | none => toString i
  | some n => n

/-- Models the fetcher loop of `FragmentCompiler.fetch_info`
(documentcompilers.py lines 915-943).  `fetchResult i` stands for the
data returned by the `i`-th fetcher's `fetch` call.  The duplicate check
at line 934 tests `data.get('fetcher_id')` — the literal string
`'fetcher_id'`, not the `fetcher_id` variable — and this embedding
reproduces that literally. -/
def fetch_info_loop {Data : Type} (fetchResult : Nat → Data) :
    Nat → List (String × Data) → List FetcherInfo →
      Except String (List (String × Data))
  | _, data, [] => .ok data
  | i, data, fi :: rest =>
    let dt := fetchResult i
    let fid := fetcher_id_of i fi
    if (getk data "fetcher_id").isSome then
      .error ("Fetcher id is duplicated " ++ fid)
    else
      fetch_info_loop fetchResult (i + 1) (setk data fid dt) rest

/-- Models `FragmentCompiler.fetch_info` restricted to its fetcher loop
(the ordered mapping it returns, or the raised duplicate error). -/
def fetch_info {Data : Type} (fetchers : List FetcherInfo)
    (fetchResult : Nat → Data) : Except String (List (String × Data)) :=
  fetch_info_loop fetchResult 0 [] fetchers

/-- C3 (code bug): two data fetchers with the same explicit name do not
raise any error; the loop silently overwrites the first fetcher's result
with the second's, returning a single-entry mapping.  The intended
duplicate check (whose error message is right next to it) compares the
literal key `'fetcher_id'` instead of the computed fetcher id, so it can
never fire for a genuine duplicate. -/
theorem c3_duplicate_fetcher_not_detected :
    fetch_info [{ name := some "x" }, { name := some "x" }] (fun i => i) =
      .ok [("x", 1)] := by rfl

/-! ### Document-level fragment traversal and error aggregation
(`reportcompiler/documentcompilers.py`, lines 427-626). -/

/-- The per-fragment record built by the traversal (the `fragment_info`
namedtuple of documentcompilers.py line 454). -/
structure FragInfo (F E R : Type) where
  fragment : F
  result : Option R
  exception : Option E
deriving DecidableEq

/-- Models `DocumentCompiler._generate_doc_fragments_sequential`
(documentcompilers.py lines 555-588): every fragment of the pre-order
traversal is attempted; an exception from one fragment is caught,
recorded in its `FragInfo`, and never stops the loop.  `run f` stands
for `self._generate_fragment(f, ...)`. -/
def generate_doc_fragments_sequential {F E R : Type} (frags : List F)
    (run : F → Except E R) : List (FragInfo F E R) :=
  frags.map (fun f =>
    match run f with
    | .ok r => { fragment := f, result := some r, exception := none }
    | .error e => { fragment := f, result := none, exception := some e })

/-- Models the error table of the single aggregated
`DocumentGenerationError` raised by
`DocumentCompiler._raise_doc_generation_errors` (lines 611-626): one
entry per failed fragment, carrying its exception. -/
def doc_generation_error_table {F E R : Type} (results : List (FragInfo F E R)) :
    List (F × E) :=
  results.filterMap (fun r => r.exception.map (fun e => (r.fragment, e)))

/-- Models the fragment stage of `DocumentCompiler._generate_doc`
(lines 459-483): generate all fragments, then — only after the full
traversal — raise the aggregated error if any fragment failed, otherwise
assemble the document context from the collected results. -/
def generate_doc {F E R D : Type} (frags : List F) (run : F → Except E R)
    (assemble : List R → D) : Except (List (F × E)) D :=
  let results := generate_doc_fragments_sequential frags run
  let errors := results.filter (fun r => r.exception.isSome)
  if errors.length > 0 then .error (doc_generation_error_table results)
  else .ok (assemble (results.filterMap (fun r => r.result)))

theorem doc_error_table_eq {F E R : Type} (frags : List F) (run : F → Except E R) :
    doc_generation_error_table (generate_doc_fragments_sequential frags run) =
      frags.filterMap (fun f =>
        match run f with
        | .error e => some (f, e)
        | .ok _ => none) := by
  induction frags with
  | nil => rfl
  | cons f fs ih =>
    cases hr : run f <;>
      simp [generate_doc_fragments_sequential, doc_generation_error_table, hr] <;>
      simpa [generate_doc_fragments_sequential, doc_generation_error_table] using ih

/-- C4: if some fragment fails, every fragment is still compiled (each
successful fragment's result is present in the traversal's result list),
and the document generation returns exactly one aggregated error naming
every failed fragment with its exception, in traversal order; the
document context is not assembled and nothing is rendered (the `.ok`
branch is not taken). -/
theorem c4_fail_soft_fail_hard {F E R D : Type} (frags : List F)
    (run : F → Except E R) (assemble : List R → D)
    (hfail : ∃ f ∈ frags, ∃ e, run f = .error e) :
    (∀ f ∈ frags, ∀ r, run f = .ok r →
      ({ fragment := f, result := some r, exception := none } : FragInfo F E R) ∈
        generate_doc_fragments_sequential frags run) ∧
    generate_doc frags run assemble =
      .error (frags.filterMap (fun f =>
        match run f with
        | .error e => some (f, e)
        | .ok _ => none)) := by
  constructor
  · intro f hf r hr
    have : ({ fragment := f, result := some r, exception := none } : FragInfo F E R) =
        (fun f =>
          match run f with
          | .ok r => ({ fragment := f, result := some r, exception := none } : FragInfo F E R)
          | .error e => { fragment := f, result := none, exception := some e }) f := by
      simp only [hr]
    rw [generate_doc_fragments_sequential, this]
    exact List.mem_map_of_mem _ hf
  · obtain ⟨f, hf, e, he⟩ := hfail
    have hmem : ({ fragment := f, result := none, exception := some e } : FragInfo F E R) ∈
        generate_doc_fragments_sequential frags run := by
      have : ({ fragment := f, result := none, exception := some e } : FragInfo F E R) =
          (fun f =>
            match run f with
            | .ok r => ({ fragment := f, result := some r, exception := none } : FragInfo F E R)
            | .error e => { fragment := f, result := none, exception := some e }) f := by
        simp only [he]
      rw [generate_doc_fragments_sequential, this]
      exact List.mem_map_of_mem _ hf
    have hpos : 0 < ((generate_doc_fragments_sequential frags run).filter
        (fun r => r.exception.isSome)).length := by
      apply List.length_pos.mpr
      intro hnil
      have := List.filter_eq_nil_iff.mp hnil _ hmem
      simp at this
    rw [generate_doc]
    simp only [hpos, if_pos]
    rw [doc_error_table_eq]

/-- C4 witness: three fragments where the second fails still yields one
aggregated error naming only that fragment. -/
theorem c4_fail_soft_witness :
    generate_doc [1, 2, 3]
        (fun f => if f = 2 then Except.error "boom" else Except.ok f)
        (fun (l : List Nat) => l) =
      .error [(2, "boom")] :=
  ((c4_fail_soft_fail_hard [1, 2, 3]
      (fun f => if f = 2 then Except.error "boom" else Except.ok f)
      (fun (l : List Nat) => l)
      ⟨2, by decide, "boom", by rfl⟩).2).trans (by rfl)

/-! ### Path handling of `DocumentCompiler.update_nested_dict`
(`reportcompiler/documentcompilers.py`, lines 695-721).  Fragment paths
are slash-joined node names (line 413); `update_nested_dict` splits them
back with `os.path.split` and `os.path.splitext`. -/

/-- Models `posixpath.split`: splits at the final slash (everything
before it, trailing slashes stripped unless all slashes, and everything
after it). -/
def pathSplit (p : Str) : Str × Str :=
  let comps := splitSep '/' p
  if comps.length ≤ 1 then ([], p)
  else
    let tl := comps.getLastD []
    let pre := joinSep '/' comps.dropLast ++ ['/']
    let head :=
      if pre.any (fun c => c != '/') then
        (pre.reverse.dropWhile (fun c => c == '/')).reverse
      else pre
    (head, tl)

/-- Models `posixpath.splitext(s)[0]`: drops the final dot-extension
unless the part before the last dot is empty or all dots. -/
def stripExt (s : Str) : Str :=
  match s.reverse.dropWhile (fun c => c != '.') with
  | [] => s
  | _ :: revRoot => if revRoot.any (fun c => c != '.') then revRoot.reverse else s

/-- Models the `while head != ''` loop of `update_nested_dict`
(documentcompilers.py lines 708-713): collects the extension-stripped
tail components, dropping the outermost path component.  The fuel bounds
the iteration count; the caller passes more fuel than any real fragment
path needs. -/
def fragment_items_loop : Nat → Str → Str → List Str
  | 0, _, _ => []
  | fuel + 1, head, tl =>
    if head = [] then []
    else stripExt tl :: fragment_items_loop fuel (pathSplit head).1 (pathSplit head).2

/-- The `fragment_items` key path of `update_nested_dict` (lines
708-714): the loop's output, reversed. -/
def fragment_items (p : Str) : List Str :=
  (fragment_items_loop (p.length + 1) (pathSplit p).1 (pathSplit p).2).reverse

theorem pathSplit_no_slash (p : Str) (h : '/' ∉ p) : pathSplit p = ([], p) := by
  rw [pathSplit, splitSep_no_sep '/' p h]
  simp

theorem joinSep_append_last (sep : Char) (ns : List Str) (t : Str) (h : ns ≠ []) :
    joinSep sep (ns ++ [t]) = joinSep sep ns ++ sep :: t := by
  induction ns with
  | nil => exact absurd rfl h
  | cons s rest ih =>
    rcases rest with _ | ⟨u, us⟩
    · rfl
    · simp only [List.cons_append, joinSep, List.append_eq]
      have ih2 := ih (by simp)
      rw [List.cons_append] at ih2
      rw [ih2]
      simp

theorem joinSep_good_ne_nil (ns : List Str) (hne : ns ≠ [])
    (h : ∀ s ∈ ns, s ≠ []) : joinSep '/' ns ≠ [] := by
  rcases ns with _ | ⟨s, rest⟩
  · exact absurd rfl hne
  · rcases rest with _ | ⟨u, us⟩
    · exact h s (by simp)
    · have hs : s ≠ [] := h s (by simp)
      rcases s with _ | ⟨c, cs⟩
      · exact absurd rfl hs
      · simp [joinSep]

theorem joinSep_reverse_head (ns : List Str) (hne : ns ≠ [])
    (h : ∀ s ∈ ns, s ≠ [] ∧ '/' ∉ s) :
    ∃ c r, (joinSep '/' ns).reverse = c :: r ∧ c ≠ '/' := by
  rcases List.eq_nil_or_concat ns with rfl | ⟨L, b, rfl⟩
  · exact absurd rfl hne
  · rw [List.concat_eq_append] at h ⊢
    have hb : b ≠ [] ∧ '/' ∉ b := h b (by simp)
    obtain ⟨c, cs, hrev⟩ : ∃ c cs, b.reverse = c :: cs := by
      rcases hrev : b.reverse with _ | ⟨c, cs⟩
      · refine absurd ?_ hb.1
        have := congrArg List.reverse hrev
        simpa using this
      · exact ⟨c, cs, rfl⟩
    have hcb : c ∈ b := by
      have : c ∈ b.reverse := by rw [hrev]; simp
      simpa using this
    have hc : c ≠ '/' := fun e => hb.2 (e ▸ hcb)
    rcases L with _ | ⟨s, rest⟩
    · simp only [List.nil_append]
      exact ⟨c, cs, hrev, hc⟩
    · rw [joinSep_append_last '/' (s :: rest) b (by simp)]
      refine ⟨c, cs ++ ['/'] ++ (joinSep '/' (s :: rest)).reverse, ?_, hc⟩
      rw [List.reverse_append, List.reverse_cons, hrev]
      simp

theorem pathSplit_join (ns : List Str) (t : Str)
    (h : ∀ s ∈ ns, s ≠ [] ∧ '/' ∉ s) (hne : ns ≠ []) (ht : '/' ∉ t) :
    pathSplit (joinSep '/' (ns ++ [t])) = (joinSep '/' ns, t) := by
  have hall : ∀ s ∈ ns ++ [t], '/' ∉ s := by
    intro s hs
    rcases List.mem_append.mp hs with hs | hs
    · exact (h s hs).2
    · simp only [List.mem_singleton] at hs
      subst hs
      exact ht
  have hcomps : splitSep '/' (joinSep '/' (ns ++ [t])) = ns ++ [t] :=
    splitSep_joinSep '/' (ns ++ [t]) (by simp) hall
  have hlen : ¬ (ns ++ [t]).length ≤ 1 := by
    rcases ns with _ | ⟨s, rest⟩
    · exact absurd rfl hne
    · simp
  obtain ⟨c, r, hrev, hc⟩ := joinSep_reverse_head ns hne h
  have hcfalse : (c == '/') = false := by simpa using hc
  simp only [pathSplit, hcomps]
  rw [if_neg hlen]
  have hdrop : (ns ++ [t]).dropLast = ns := by simp
  have hlast : (ns ++ [t]).getLastD [] = t := by
    rw [List.getLastD_eq_getLast?, List.getLast?_concat]
    rfl
  rw [hdrop, hlast]
  have hany : ((joinSep '/' ns ++ ['/']).any (fun ch => ch != '/')) = true := by
    rw [List.any_eq_true]
    refine ⟨c, List.mem_append_left _ ?_, by simpa using hc⟩
    have : c ∈ (joinSep '/' ns).reverse := by rw [hrev]; simp
    simpa using this
  rw [if_pos hany]
  rw [List.reverse_append]
  simp only [List.reverse_cons, List.reverse_nil, List.nil_append,
    List.singleton_append]
  rw [List.dropWhile_cons]
  simp only [beq_self_eq_true, if_true]
  rw [hrev, List.dropWhile_cons, hcfalse]
  simp only [Bool.false_eq_true, if_false]
  rw [← hrev, List.reverse_reverse]

theorem fragment_items_loop_nil_head (fuel : Nat) (t : Str) :
    fragment_items_loop fuel [] t = [] := by
  cases fuel <;> simp [fragment_items_loop]

theorem fragment_items_loop_join (ns : List Str) :
    ∀ (t : Str) (fuel : Nat), (∀ s ∈ ns, s ≠ [] ∧ '/' ∉ s) → ns ≠ [] →
      ns.length ≤ fuel →
      fragment_items_loop fuel (joinSep '/' ns) t =
        stripExt t :: ((ns.drop 1).reverse.map stripExt) := by
  induction ns using List.reverseRecOn with
  | nil =>
    intro t fuel _ hne _
    exact absurd rfl hne
  | append_singleton L b ih =>
    intro t fuel h hne hfuel
    by_cases hL : L = []
    · subst hL
      simp only [List.nil_append] at h hfuel ⊢
      have hb := h b (by simp)
      obtain ⟨fuel2, rfl⟩ : ∃ k, fuel = k + 1 := by
        rcases fuel with _ | k
        · simp at hfuel
        · exact ⟨k, rfl⟩
      have hj : joinSep '/' [b] = b := rfl
      simp only [fragment_items_loop, hj]
      rw [if_neg hb.1, pathSplit_no_slash b hb.2]
      simp [fragment_items_loop_nil_head]
    · have hL2 : ∀ s ∈ L, s ≠ [] ∧ '/' ∉ s :=
        fun s hs => h s (List.mem_append_left _ hs)
      have hb := h b (by simp)
      have hjoin_ne : joinSep '/' (L ++ [b]) ≠ [] :=
        joinSep_good_ne_nil _ (by simp) (fun s hs => (h s hs).1)
      obtain ⟨fuel2, rfl⟩ : ∃ k, fuel = k + 1 := by
        rcases fuel with _ | k
        · rw [Nat.le_zero] at hfuel
          simp at hfuel
        · exact ⟨k, rfl⟩
      simp only [fragment_items_loop]
      rw [if_neg hjoin_ne, pathSplit_join L b hL2 hL hb.2]
      have hfuel2 : L.length ≤ fuel2 := by
        have := hfuel
        simp only [List.length_append, List.length_singleton] at this
        omega
      rw [ih b fuel2 hL2 hL hfuel2]
      rcases L with _ | ⟨s, rest⟩
      · exact absurd rfl hL
      · simp

theorem joinSep_length_ge (ns : List Str) (h : ∀ s ∈ ns, s ≠ []) :
    ns.length ≤ (joinSep '/' ns).length := by
  induction ns with
  | nil => simp [joinSep]
  | cons s rest ih =>
    rcases rest with _ | ⟨u, us⟩
    · have h1 : s ≠ [] := h s (by simp)
      have h3 : 1 ≤ s.length := List.length_pos.mpr h1
      simpa [joinSep] using h3
    · have h1 : s ≠ [] := h s (by simp)
      have h2 := ih (fun x hx => h x (by simp [hx]))
      have h3 : 1 ≤ s.length := List.length_pos.mpr h1
      simp only [joinSep, List.length_append, List.length_cons] at h2 ⊢
      omega

/-- The key-path law of `update_nested_dict`: for a fragment path built
by joining node names with slashes (documentcompilers.py line 413), the
extracted key path is the list of names with the first (root) dropped
and extensions stripped. -/
theorem fragment_items_spec (names : List Str)
    (h : ∀ s ∈ names, s ≠ [] ∧ '/' ∉ s) (hne : names ≠ []) :
    fragment_items (joinSep '/' names) = (names.drop 1).map stripExt := by
  rcases List.eq_nil_or_concat names with rfl | ⟨L, b, rfl⟩
  · exact absurd rfl hne
  · rw [List.concat_eq_append] at h ⊢
    by_cases hL : L = []
    · subst hL
      simp only [List.nil_append] at h ⊢
      have hb := h b (by simp)
      rw [fragment_items, show joinSep '/' [b] = b from rfl,
        pathSplit_no_slash _ hb.2, fragment_items_loop_nil_head]
      simp
    · have hb := h b (by simp)
      have hL2 : ∀ s ∈ L, s ≠ [] ∧ '/' ∉ s :=
        fun s hs => h s (List.mem_append_left _ hs)
      rw [fragment_items, pathSplit_join L b hL2 hL hb.2]
      have hfuel : L.length ≤ (joinSep '/' (L ++ [b])).length + 1 := by
        have h4 := joinSep_length_ge (L ++ [b]) (fun s hs => (h s hs).1)
        simp only [List.length_append, List.length_singleton] at h4
        omega
      rw [fragment_items_loop_join L b ((joinSep '/' (L ++ [b])).length + 1)
        hL2 hL hfuel]
      rcases L with _ | ⟨s, rest⟩
      · exact absurd rfl hL
      · simp [List.map_reverse]

/-! ### Nested document context
(`reportcompiler/documentcompilers.py`, lines 602-609 and 695-721). -/

/-- A nested Python value inside the document context: an opaque leaf
(abstracting scalars) or a nested dict. -/
inductive NVal where
  | leaf : Nat → NVal
  | node : List (Str × NVal) → NVal

/-- A nested context dictionary. -/
abbrev NDict := List (Str × NVal)

theorem getk_setk_same {κ α : Type} [DecidableEq κ] (d : List (κ × α))
    (k : κ) (v : α) : getk (setk d k v) k = some v := by
  induction d with
  | nil => simp [setk, getk]
  | cons kv rest ih =>
    rcases kv with ⟨k2, w⟩
    by_cases hk : k2 = k
    · simp [setk, getk, hk]
    · simp [setk, getk, hk, ih]

/-- The descent-and-merge core of `DocumentCompiler.update_nested_dict`
(documentcompilers.py lines 716-721), after the key path has been
extracted: walk down `items`, creating an empty dict where the key is
absent (`aux_dict[item] = {}`), and shallow-merge `frag` into the dict
reached at the end (`aux_dict.update(frag_context)`).  Reaching a
non-dict value models the `AttributeError` Python would raise on its
`.update`. -/
def update_nested_at : NDict → List Str → NDict → Except Unit NDict
  | doc, [], frag => .ok (dictUpdate doc frag)
  | doc, item :: rest, frag =>
    match getk doc item with
    | none =>
      match update_nested_at [] rest frag with
      | .error e => .error e
      | .ok m2 => .ok (setk doc item (NVal.node m2))
    | some (NVal.node m) =>
      match update_nested_at m rest frag with
      | .error e => .error e
      | .ok m2 => .ok (setk doc item (NVal.node m2))
    | some (NVal.leaf _) => .error ()

/-- Models `DocumentCompiler.update_nested_dict` (lines 695-721): the
key path is computed from the fragment path string by the
`os.path.split` loop, then the fragment context is merged at that
path. -/
def update_nested_dict (doc_context : NDict) (fragment : Str)
    (frag_context : NDict) : Except Unit NDict :=
  update_nested_at doc_context (fragment_items fragment) frag_context

/-- Models `DocumentCompiler._build_fragments_context` (lines 602-609):
fold every fragment's `(context, path)` result into an initially empty
context via `update_nested_dict`. -/
def build_fragments_context (results : List (NDict × Str)) : Except Unit NDict :=
  results.foldlM (fun acc r => update_nested_dict acc r.2 r.1) []

/-- Looks up the nested dict sitting at a key path (not part of the
source; used to state what `update_nested_dict` wrote). -/
def get_at_items : NDict → List Str → Option NDict
  | d, [] => some d
  | d, item :: rest =>
    match getk d item with
    | some (NVal.node m) => get_at_items m rest
    | _ => none

theorem update_nested_at_get (items : List Str) :
    ∀ (d sub frag : NDict), get_at_items d items = some sub →
      ∃ d2, update_nested_at d items frag = .ok d2 ∧
        get_at_items d2 items = some (dictUpdate sub frag) := by
  induction items with
  | nil =>
    intro d sub frag hget
    simp only [get_at_items, Option.some.injEq] at hget
    subst hget
    exact ⟨dictUpdate d frag, rfl, rfl⟩
  | cons item rest ih =>
    intro d sub frag hget
    simp only [get_at_items] at hget
    rcases hgk : getk d item with _ | v
    · rw [hgk] at hget
      simp at hget
    · rcases v with n | m
      · rw [hgk] at hget
        simp at hget
      · rw [hgk] at hget
        obtain ⟨m2, hm2, hgm2⟩ := ih m sub frag hget
        refine ⟨setk d item (NVal.node m2), ?_, ?_⟩
        · simp only [update_nested_at, hgk, hm2]
        · simp only [get_at_items, getk_setk_same, hgm2]

theorem update_nested_at_empty (items : List Str) :
    ∀ (frag : NDict), ∃ d1, update_nested_at [] items frag = .ok d1 ∧
      get_at_items d1 items = some (dictUpdate [] frag) := by
  induction items with
  | nil =>
    intro frag
    exact ⟨dictUpdate [] frag, rfl, rfl⟩
  | cons item rest ih =>
    intro frag
    obtain ⟨m2, hm2, hgm2⟩ := ih frag
    refine ⟨setk [] item (NVal.node m2), ?_, ?_⟩
    · simp only [update_nested_at, getk, hm2]
    · simp only [get_at_items, getk_setk_same, hgm2]

/-- C5 counterexample: a fragment `A` whose tree path is `root → A`
(fragment path string `"R/A"`) has its context inserted under the key
`A` — the node's own name — not at the path formed by its ancestors with
the root excluded (which would be the empty path, merging the context at
the top level). -/
theorem c5_path_includes_own_name :
    update_nested_dict [] (toStr "R/A") [(toStr "k", NVal.leaf 1)] =
      .ok [(toStr "A", NVal.node [(toStr "k", NVal.leaf 1)])] ∧
    ([(toStr "A", NVal.node [(toStr "k", NVal.leaf 1)])] : NDict) ≠
      dictUpdate [] [(toStr "k", NVal.leaf 1)] := by
  constructor
  · rfl
  · intro hcontra
    have h1 : dictUpdate ([] : NDict) [(toStr "k", NVal.leaf 1)] =
        [(toStr "k", NVal.leaf 1)] := rfl
    rw [h1] at hcontra
    injection hcontra with hhead _
    injection hhead with hk _
    exact absurd hk (by decide)

/-- C5 (amended): a fragment's context is inserted at the nested key
path formed by the names of the nodes on its path from the root — the
root excluded but the node's own name included — with extensions
stripped; and insertion shallow-merges (dictionary update) into the
mapping already present at that path rather than replacing it, so two
fragments with the same insertion path contributing contexts both end up
merged under the same nested mapping. -/
theorem c5_nested_merge (names : List Str) (doc frag : NDict)
    (hgood : ∀ s ∈ names, s ≠ [] ∧ '/' ∉ s) (hne : names ≠ []) :
    update_nested_dict doc (joinSep '/' names) frag =
      update_nested_at doc ((names.drop 1).map stripExt) frag ∧
    ∀ (items : List Str) (f1 f2 : NDict),
      ∃ d1 d2, update_nested_at [] items f1 = .ok d1 ∧
        update_nested_at d1 items f2 = .ok d2 ∧
        get_at_items d2 items = some (dictUpdate (dictUpdate [] f1) f2) := by
  constructor
  · rw [update_nested_dict, fragment_items_spec names hgood hne]
  · intro items f1 f2
    obtain ⟨d1, h1, hg1⟩ := update_nested_at_empty items f1
    obtain ⟨d2, h2, hg2⟩ := update_nested_at_get items d1 (dictUpdate [] f1) f2 hg1
    exact ⟨d1, d2, h1, h2, hg2⟩

/-- C5 witness: the merge characterization at the two-node path
`root/A`. -/
theorem c5_nested_merge_witness :
    update_nested_dict [] (joinSep '/' [toStr "root", toStr "A"])
        [(toStr "k", NVal.leaf 2)] =
      update_nested_at [] (([toStr "root", toStr "A"].drop 1).map stripExt)
        [(toStr "k", NVal.leaf 2)] :=
  (c5_nested_merge [toStr "root", toStr "A"] [] [(toStr "k", NVal.leaf 2)]
    (by decide) (by decide)).1

/-! ### Metadata sharing between units of work
(`reportcompiler/documentcompilers.py`, lines 510-588 and 753-826). -/

/-- Metadata dicts for the sharing model: string keys and values. -/
abbrev MDict := List (String × String)

/-- Models the metadata mutations of `FragmentCompiler.compile`
(documentcompilers.py lines 802-826) for one fragment: assign
`fragment_path` and `fragment_name` (lines 804-806), apply the
`setup_logger` renaming of `logger_name` when multiprocessing (lines
764, 808-811), then retrieve the fragment metadata and merge it in place
with `metadata.update(fragment_metadata)` (lines 813-816).  The result
is the metadata dict observed by this fragment's data-fetch and
context-generation stages — and, since `compile` never copies
`doc_metadata`, also the state of the caller's dict afterwards. -/
def compile_metadata {F : Type} (multiproc : Bool)
    (retr : F → MDict → MDict) (pathOf nameOf : F → String)
    (meta : MDict) (f : F) : MDict :=
  let m0 := setk (setk meta "fragment_path" (pathOf f)) "fragment_name" (nameOf f)
  let m1 :=
    if multiproc then
      setk m0 "logger_name" (((getk m0 "logger_name").getD "") ++ "-" ++ nameOf f)
    else m0
  dictUpdate m1 (retr f m1)

/-- Models `_generate_doc_fragments_sequential` (lines 555-588, with
`multiprocessing=False`): every fragment's `compile` call receives the
same `doc_metadata` dict object, so each fragment observes the dict as
mutated by all previous fragments. -/
def sequential_observed_metadata {F : Type} (retr : F → MDict → MDict)
    (pathOf nameOf : F → String) : MDict → List F → List MDict
  | _, [] => []
  | meta, f :: rest =>
    let m := compile_metadata false retr pathOf nameOf meta f
    m :: sequential_observed_metadata retr pathOf nameOf m rest

/-- Models `_generate_doc_fragments_parallel` (lines 510-553): each
`executor.submit` serializes its arguments into the worker process, so
every fragment's `compile` operates on an independent copy of
`doc_metadata` (`multiprocessing=True`). -/
def parallel_observed_metadata {F : Type} (retr : F → MDict → MDict)
    (pathOf nameOf : F → String) (meta : MDict) (frags : List F) : List MDict :=
  frags.map (fun f => compile_metadata true retr pathOf nameOf meta f)

/-- C8 counterexample: in the sequential single-worker mode the second
fragment observes the key `"x"` merged into the shared metadata dict by
the first fragment's metadata retrieval, while in the parallel mode its
isolated copy does not contain it — so units of work do not receive
independently-owned copies in both modes. -/
theorem c8_sequential_shares_metadata :
    getk ((sequential_observed_metadata
        (fun f _ => if f = 1 then [("x", "v")] else [])
        (fun _ => "p") (fun _ => "n") [] [1, 2]).getD 1 []) "x" = some "v" ∧
    getk ((parallel_observed_metadata
        (fun f _ => if f = 1 then [("x", "v")] else [])
        (fun _ => "p") (fun _ => "n") [] [1, 2]).getD 1 []) "x" = none := by
  constructor <;> rfl

/-- C8 (amended): in the parallel mode every unit of work operates on an
independent copy of the document metadata, so one unit's metadata
retrieval can never change the metadata observed by another unit; in the
sequential single-worker mode the same dict object is shared, and
mutations made while compiling one fragment are observed by subsequent
fragments (see the counterexample). -/
theorem c8_parallel_isolated {F : Type} (retr1 retr2 : F → MDict → MDict)
    (pathOf nameOf : F → String) (meta : MDict) (frags : List F) (j : Nat)
    (f : F) (hj : frags[j]? = some f) (hsame : ∀ m, retr1 f m = retr2 f m) :
    (parallel_observed_metadata retr1 pathOf nameOf meta frags)[j]? =
      (parallel_observed_metadata retr2 pathOf nameOf meta frags)[j]? := by
  simp only [parallel_observed_metadata, List.getElem?_map, hj]
  simp [compile_metadata, hsame]

/-- C8 witness: two retrievers that agree on fragment 2 but differ on
fragment 1 yield the same observed metadata for fragment 2 in parallel
mode. -/
theorem c8_parallel_isolated_witness :
    (parallel_observed_metadata (fun f _ => if f = 1 then [("x", "v")] else [])
        (fun _ => "p") (fun _ => "n") [] [1, 2])[1]? =
      (parallel_observed_metadata (fun f _ => if f = 1 then [("y", "w")] else [])
        (fun _ => "p") (fun _ => "n") [] [1, 2])[1]? :=
  c8_parallel_isolated (fun f _ => if f = 1 then [("x", "v")] else [])
    (fun f _ => if f = 1 then [("y", "w")] else [])
    (fun _ => "p") (fun _ => "n") [] [1, 2] 1 2 rfl (fun _ => rfl)

/-! ### Template tree construction
(`reportcompiler/documentcompilers.py`, lines 137-173).

`generate_template_tree` builds the tree with an explicit stack of
`anytree` nodes: each popped node's template content is read, its
included templates become its children in discovery order, and the new
nodes are pushed.  Since every node is created with its final parent and
children are attached in include order, the resulting tree satisfies the
recursive equations below whenever every template resolves locally (the
`RC_TEMPLATE_LIBRARY_PATH` fallback and removal of library nodes, lines
157-171, are modelled as resolution failure). -/

/-- A node of the template dependency tree. -/
inductive TemplateNode where
  | mk : String → List TemplateNode → TemplateNode

/-- Builds the list of trees for a list of template names.  `tmpl n`
returns the list of templates included by template `n`
(`included_templates` applied to the resolved content), or `none` if the
template cannot be resolved.  The fuel bounds the include depth; `none`
on fuel exhaustion models the unbounded loop the stack code would run
into for cyclic includes. -/
def generate_template_forest (tmpl : String → Option (List String)) :
    Nat → List String → Option (List TemplateNode)
  | _, [] => some []
  | 0, _ :: _ => none
  | fuel + 1, n :: ns =>
    match tmpl n with
    | none => none
    | some incs =>
      match generate_template_forest tmpl fuel incs with
      | none => none
      | some cs =>
        match generate_template_forest tmpl (fuel + 1) ns with
        | none => none
        | some ts => some (TemplateNode.mk n cs :: ts)
termination_by fuel ns => (fuel, ns.length)

/-- Models `DocumentCompiler.generate_template_tree` (lines 137-173):
the dependency tree rooted at the main template. -/
def generate_template_tree (tmpl : String → Option (List String))
    (fuel : Nat) (root : String) : Option TemplateNode :=
  match generate_template_forest tmpl fuel [root] with
  | some [t] => some t
  | _ => none

mutual

/-- Pre-order traversal of the template tree (the order `PreOrderIter`
yields at documentcompilers.py line 184 and elsewhere). -/
def preorder : TemplateNode → List String
  | .mk n cs => n :: preorderForest cs

/-- Pre-order traversal of a forest. -/
def preorderForest : List TemplateNode → List String
  | [] => []
  | t :: ts => preorder t ++ preorderForest ts

end

mutual

/-- Number of nodes of a template tree. -/
def countNodes : TemplateNode → Nat
  | .mk _ cs => 1 + countNodesForest cs

/-- Number of nodes of a forest. -/
def countNodesForest : List TemplateNode → Nat
  | [] => 0
  | t :: ts => countNodes t + countNodesForest ts

end

/-- C9: a template set with includes `a → [b, c]`, `b → []`, `c → [d]`,
`d → []` (all names distinct) produces a tree of exactly 4 nodes whose
pre-order traversal is `[a, b, c, d]`, children ordered by discovery
order in the parent template. -/
theorem c9_template_tree_preorder (a b c d : String)
    (hba : b ≠ a) (hca : c ≠ a) (hcb : c ≠ b)
    (hda : d ≠ a) (hdb : d ≠ b) (hdc : d ≠ c) :
    ∃ t, generate_template_tree
        (fun n =>
          if n = a then some [b, c]
          else if n = b then some []
          else if n = c then some [d]
          else if n = d then some []
          else none) 4 a = some t ∧
      preorder t = [a, b, c, d] ∧ countNodes t = 4 := by
  refine ⟨TemplateNode.mk a
      [TemplateNode.mk b [], TemplateNode.mk c [TemplateNode.mk d []]],
    ?_, ?_, ?_⟩
  · have hfd : generate_template_forest
        (fun n =>
          if n = a then some [b, c]
          else if n = b then some []
          else if n = c then some [d]
          else if n = d then some []
          else none) 2 [d] = some [TemplateNode.mk d []] := by
      simp [generate_template_forest, hda, hdb, hdc]
    have hfbc : generate_template_forest
        (fun n =>
          if n = a then some [b, c]
          else if n = b then some []
          else if n = c then some [d]
          else if n = d then some []
          else none) 3 [b, c] =
        some [TemplateNode.mk b [], TemplateNode.mk c [TemplateNode.mk d []]] := by
      simp [generate_template_forest, hba, hca, hcb, hfd]
    rw [generate_template_tree]
    have hfa : generate_template_forest
        (fun n =>
          if n = a then some [b, c]
          else if n = b then some []
          else if n = c then some [d]
          else if n = d then some []
          else none) 4 [a] =
        some [TemplateNode.mk a
          [TemplateNode.mk b [], TemplateNode.mk c [TemplateNode.mk d []]]] := by
      simp [generate_template_forest, hfbc]
    rw [hfa]
  · simp [preorder, preorderForest]
  · simp [countNodes, countNodesForest]

/-- C9 witness: the tree equations at concrete template names. -/
theorem c9_template_tree_witness :
    ∃ t, generate_template_tree
        (fun n =>
          if n = "A" then some ["B", "C"]
          else if n = "B" then some []
          else if n = "C" then some ["D"]
          else if n = "D" then some []
          else none) 4 "A" = some t ∧
      preorder t = ["A", "B", "C", "D"] ∧ countNodes t = 4 :=
  c9_template_tree_preorder "A" "B" "C" "D"
    (by decide) (by decide) (by decide) (by decide) (by decide) (by decide)

/-! ### `DocumentCompiler.get_doc_param_suffix`
(`reportcompiler/documentcompilers.py`, lines 38-60). -/

/-- A Python value as can appear in a document parameter. -/
inductive PVal where
  | pstr : String → PVal
  | pint : Int → PVal
  | pbool : Bool → PVal
  | pnone : PVal
  | plist : List PVal → PVal
  | ptuple : List PVal → PVal
  | pdict : List (String × PVal) → PVal

mutual

/-- Python `repr` of a value (string escaping inside quotes omitted). -/
def pyRepr : PVal → String
  | .pstr s => "\x27" ++ s ++ "\x27"
  | .pint n => toString n
  | .pbool b => if b then "True" else "False"
  | .pnone => "None"
  | .plist xs => "[" ++ pyReprList xs ++ "]"
  | .ptuple xs => "(" ++ pyReprList xs ++ (if xs.length = 1 then ",)" else ")")
  | .pdict kvs => "\x7b" ++ pyReprDict kvs ++ "\x7d"

/-- Comma-separated `repr`s of a list of values. -/
def pyReprList : List PVal → String
  | [] => ""
  | [x] => pyRepr x
  | x :: y :: rest => pyRepr x ++ ", " ++ pyReprList (y :: rest)

/-- Comma-separated `repr`s of the key/value pairs of a dict. -/
def pyReprDict : List (String × PVal) → String
  | [] => ""
  | [(k, v)] => "\x27" ++ k ++ "\x27: " ++ pyRepr v
  | (k, v) :: kv2 :: rest =>
    "\x27" ++ k ++ "\x27: " ++ pyRepr v ++ ", " ++ pyReprDict (kv2 :: rest)

end

/-- Python `str` of a value: the string itself for strings, `repr`
otherwise. -/
def pyStr : PVal → String
  | .pstr s => s
  | v => pyRepr v

/-- Models `suffix.replace(': ', '=')` (documentcompilers.py line 57):
left-to-right, non-overlapping replacement of every occurrence. -/
def replaceColonSpaceAux : List Char → List Char
  | ':' :: ' ' :: rest => '=' :: replaceColonSpaceAux rest
  | ch :: rest => ch :: replaceColonSpaceAux rest
  | [] => []

/-- Models `suffix.replace(': ', '=')` on a string. -/
def replaceColonSpace (s : String) : String :=
  String.mk (replaceColonSpaceAux s.data)

/-- Models `DocumentCompiler.get_doc_param_suffix` (documentcompilers.py
lines 38-60): lists and tuples join their stringified elements with
`-`, dicts join their stringified values in order (keys ignored),
strings pass through, and any other type raises `ValueError`; the
result then has every `": "` replaced by `"="`.  (The `except KeyError`
handler at line 59 is dead code: none of these operations raise
`KeyError`.) -/
def get_doc_param_suffix (doc_param : PVal) : Except Unit String :=
  match doc_param with
  | .plist xs => .ok (replaceColonSpace (String.intercalate "-" (xs.map pyStr)))
  | .ptuple xs => .ok (replaceColonSpace (String.intercalate "-" (xs.map pyStr)))
  | .pdict kvs =>
    .ok (replaceColonSpace (String.intercalate "-" (kvs.map (fun kv => pyStr kv.2))))
  | .pstr s => .ok (replaceColonSpace s)
  | _ => .error ()

/-- Whether a value has one of the four types `get_doc_param_suffix`
accepts (list, tuple, dict, str). -/
def suffixable : PVal → Bool
  | .plist _ => true
  | .ptuple _ => true
  | .pdict _ => true
  | .pstr _ => true
  | _ => false

/-- C10: `get_doc_param_suffix` raises `ValueError` exactly when its
argument is neither a list, a tuple, a dict, nor a str; and for dicts
the suffix depends only on the sequence of values (keys are ignored), so
two distinct parameter dicts with the same value sequence receive the
same suffix and hence the same cache/output namespace. -/
theorem c10_suffix_characterization :
    (∀ v : PVal, (∃ s, get_doc_param_suffix v = .ok s) ↔ suffixable v = true) ∧
    (∀ kvs1 kvs2 : List (String × PVal),
      kvs1.map Prod.snd = kvs2.map Prod.snd →
      get_doc_param_suffix (.pdict kvs1) = get_doc_param_suffix (.pdict kvs2)) := by
  constructor
  · intro v
    cases v <;> simp [get_doc_param_suffix, suffixable]
  · intro kvs1 kvs2 hvals
    simp only [get_doc_param_suffix, Except.ok.injEq]
    have h1 : kvs1.map (fun kv => pyStr kv.2) = (kvs1.map Prod.snd).map pyStr := by
      rw [List.map_map]
      rfl
    have h2 : kvs2.map (fun kv => pyStr kv.2) = (kvs2.map Prod.snd).map pyStr := by
      rw [List.map_map]
      rfl
    rw [h1, h2, hvals]

/-- C10 witness: two dicts with different keys but the same values get
the same suffix. -/
theorem c10_suffix_witness :
    get_doc_param_suffix (.pdict [("a", .pint 1)]) =
      get_doc_param_suffix (.pdict [("b", .pint 1)]) :=
  c10_suffix_characterization.2 [("a", .pint 1)] [("b", .pint 1)] rfl
